import Mathlib

/-!
Shallow embedding of the PBL4 book-review backend (`src/` of the repository)
for checking its natural-language specification.

The embedding covers the pieces the claims are about:
* the field validators of `src/routers/users.py` (`validate_email`,
  `validate_phone_number`) together with the regular expressions of
  `src/constants.py`;
* the relational state (users / authors / posts rows of `src/models.py`)
  with its uniqueness / not-null / foreign-key constraints, a `commit`
  that either persists a candidate state or rolls back to the old one
  raising an `IntegrityError` naming the violated constraint;
* the CRUD functions and routes of `src/routers/users.py`,
  `src/routers/authors.py` and `src/routers/posts.py` that the claims
  reference.

Conventions: every operation takes the persisted database state and
returns the new persisted state together with `Except Err out`; a
rollback (or a session discarded without commit) is represented by
returning the original state.  Server-managed timestamps
(`func.now()` defaults / `onupdate` of `models.py`) are abstracted as
opaque stored `Nat` values taken from a clock field: no claim concerns
clock behaviour, and none of the embedded operations lets a request set
them.
-/

deriving instance DecidableEq for Except

/-! ## Python string primitives -/

/-- The whitespace characters removed by Python's `str.strip()` for
ASCII input (space, tab, newline, carriage return, vertical tab,
form feed). -/
def isPySpace (c : Char) : Bool :=
  c = ' ' || c = '\t' || c = '\n' || c = '\r' || c = '\x0b' || c = '\x0c'

/-- Python `str.strip()`: drop leading and trailing whitespace. -/
def pyStrip (l : List Char) : List Char :=
  ((l.dropWhile isPySpace).reverse.dropWhile isPySpace).reverse

/-- Python `str.lower()` restricted to ASCII letters; the strings the
email validator lowers are accepted by an ASCII-only pattern, so this
agrees with Python there. -/
def pyLower (l : List Char) : List Char :=
  l.map Char.toLower

/-! ## The email regular expression

`Regex.EMAIL_REGEX = r'^[A-Za-z0-9._%+-]+@[A-Za-z0-9.-]+\.[A-Za-z]{2,}$'`
(src/constants.py line 11), applied with `re.match` to an
already-stripped string, hence an anchored full match. -/

/-- Character class `[A-Za-z0-9._%+-]` of the local part. -/
def isLocalChar (c : Char) : Bool :=
  c.isAlpha || c.isDigit || c = '.' || c = '_' || c = '%' || c = '+' || c = '-'

/-- Character class `[A-Za-z0-9.-]` of the domain part. -/
def isDomainChar (c : Char) : Bool :=
  c.isAlpha || c.isDigit || c = '.' || c = '-'

/-- Split a list at the first occurrence of `c`: returns the prefix
before it (which does not contain `c`) and the suffix after it. -/
def breakAt (c : Char) : List Char → Option (List Char × List Char)
  | [] => none
  | a :: as =>
    if a = c then some ([], as)
    else
      match breakAt c as with
      | none => none
      | some (l, r) => some (a :: l, r)

/-- Executable decision procedure for the anchored email regex: the
`@` consumed by the pattern is the first `@` (neither character class
contains `@`), and the literal `.` is the last `.` of what follows
(the trailing `[A-Za-z]{2,}` contains no dot). -/
def emailMatch (s : List Char) : Bool :=
  match breakAt '@' s with
  | none => false
  | some (l, r) =>
    !l.isEmpty && l.all isLocalChar &&
      match breakAt '.' r.reverse with
      | none => false
      | some (tRev, dRev) =>
        !dRev.isEmpty && dRev.all isDomainChar &&
          decide (2 ≤ tRev.length) && tRev.all Char.isAlpha

/-- Declarative reading of the email regex: some decomposition
`local ++ '@' ++ domain ++ '.' ++ tld` with the three parts drawn from
their character classes, the local and domain parts non-empty and the
tld of length at least two. -/
def emailPattern (s : List Char) : Prop :=
  ∃ l d t, s = l ++ '@' :: (d ++ '.' :: t) ∧
    l ≠ [] ∧ (∀ c ∈ l, isLocalChar c = true) ∧
    d ≠ [] ∧ (∀ c ∈ d, isDomainChar c = true) ∧
    2 ≤ t.length ∧ (∀ c ∈ t, Char.isAlpha c = true)

/-- `UserBase.validate_email` (src/routers/users.py lines 20-31):
strip, match against `EMAIL_REGEX`, lower-case on success, raise a
`ValueError` (pydantic `ValidationError`) otherwise. -/
def validate_email (v : String) : Except String String :=
  let t := pyStrip v.toList
  if emailMatch t then Except.ok (String.mk (pyLower t))
  else Except.error "Invalid email address"

/-! ## The phone regular expression

`Regex.PHONE_REGEX = r'^\+?[1-9]\d{10}$'` (src/constants.py line 12). -/

/-- The `[1-9]\d{10}$` tail of the phone regex: one non-zero digit
followed by exactly ten digits. -/
def phoneCore : List Char → Bool
  | [] => false
  | c :: cs =>
    ('1' ≤ c && c ≤ '9') && decide (cs.length = 10) && cs.all Char.isDigit

/-- Executable decision procedure for the anchored phone regex: the
optional `+` is consumed exactly when present (a digit is never `+`). -/
def phoneMatch (s : List Char) : Bool :=
  match s with
  | [] => false
  | c :: rest => if c = '+' then phoneCore rest else phoneCore s

/-- Declarative reading of the phone regex: an optional leading `+`,
then eleven digits the first of which lies in `1`-`9`. -/
def phonePattern (s : List Char) : Prop :=
  ∃ c cs, (s = c :: cs ∨ s = '+' :: c :: cs) ∧
    ('1' ≤ c ∧ c ≤ '9') ∧ cs.length = 10 ∧ (∀ x ∈ cs, Char.isDigit x = true)

/-- The pattern the claim about phone validation describes: an optional
leading `+` followed by eleven numeric digits (no constraint on the
first digit).  Kept for comparison with the source regex. -/
def claimPhonePattern (s : List Char) : Bool :=
  match s with
  | '+' :: r => decide (r.length = 11) && r.all Char.isDigit
  | _ => decide (s.length = 11) && s.all Char.isDigit

/-- `UserBase.validate_phone_number` (src/routers/users.py lines
33-47): `None` passes through, otherwise strip and match against
`PHONE_REGEX`; the stripped string is returned unmodified. -/
def validate_phone_number (v : Option String) : Except String (Option String) :=
  match v with
  | none => Except.ok none
  | some s =>
    let t := pyStrip s.toList
    if phoneMatch t then Except.ok (some (String.mk t))
    else Except.error "Invalid phone number format"

/-! ## Relational state (src/models.py)

Only the tables the claims touch are embedded: `users`, `authors`,
`posts`.  Column nullability follows `models.py`; `created_at` and
`updated_at` are opaque clock values (see the header comment). -/

/-- `RequestStatus` enum (src/models.py lines 131-134). -/
inductive RequestStatus where
  | PENDING
  | APPROVED
  | REJECTED
deriving Repr, DecidableEq

/-- A row of the `users` table (src/models.py lines 35-44): `email`
and `password` are `NOT NULL` columns, so the `Option` is constrained
at commit time; `phone_number` is nullable; `role` defaults to 0. -/
structure UserRow where
  id : Nat
  email : Option String
  password : Option String
  phone_number : Option String
  role : Nat
  created_at : Nat
  updated_at : Nat
deriving Repr, DecidableEq

/-- A row of the `authors` table (src/models.py lines 95-110):
`pen_name` unique, `bio` nullable, `user_id` a unique non-null foreign
key to `users`.  Every code path stores a string `pen_name`. -/
structure AuthorRow where
  id : Nat
  pen_name : String
  bio : Option String
  user_id : Nat
deriving Repr, DecidableEq

/-- A row of the `posts` table (src/models.py lines 137-154):
`author_id` is a nullable foreign key to `authors`; `status` defaults
to `PENDING`. -/
structure PostRow where
  id : Nat
  title : String
  content : String
  cover_url : Option String
  credit : Option String
  status : RequestStatus
  sale_url : Option String
  author_id : Option Nat
deriving Repr, DecidableEq

/-- The persisted database state: the three tables, the auto-increment
counters, and the abstract clock supplying timestamp values. -/
structure DB where
  users : List UserRow
  authors : List AuthorRow
  posts : List PostRow
  nextUserId : Nat
  nextAuthorId : Nat
  nextPostId : Nat
  clock : Nat
deriving Repr, DecidableEq

/-- The schema constraints an `INSERT`/`UPDATE` can violate in the
embedded tables. -/
inductive Constraint where
  | usersEmailNull
  | usersPasswordNull
  | usersEmailUnique
  | authorsPenNameUnique
  | authorsUserIdUnique
  | postsAuthorFk
deriving Repr, DecidableEq

/-- The lower-cased driver message of each violated constraint
(SQLite naming, matching the `str(e.orig).lower()` inspection in
src/routers/authors.py line 75). -/
def errStr : Constraint → String
  | .usersEmailNull => "not null constraint failed: users.email"
  | .usersPasswordNull => "not null constraint failed: users.password"
  | .usersEmailUnique => "unique constraint failed: users.email"
  | .authorsPenNameUnique => "unique constraint failed: authors.pen_name"
  | .authorsUserIdUnique => "unique constraint failed: authors.user_id"
  | .postsAuthorFk => "foreign key constraint failed"

/-- Two users carry the same non-null email (violation of
`unique=True` on `users.email`; SQL `NULL`s never conflict, hence the
`filterMap`). -/
def dupEmail (us : List UserRow) : Bool :=
  decide ¬ (us.filterMap (fun u => u.email)).Nodup

/-- Two authors share a pen name (violation of `unique=True` on
`authors.pen_name`). -/
def dupPenName (l : List AuthorRow) : Bool :=
  decide ¬ (l.map (fun a => a.pen_name)).Nodup

/-- Two authors reference the same user (violation of `unique=True` on
`authors.user_id`). -/
def dupUserId (l : List AuthorRow) : Bool :=
  decide ¬ (l.map (fun a => a.user_id)).Nodup

/-- Some post references an author id that no author row carries
(violation of the `posts.author_id` foreign key; a `NULL` reference is
allowed by the nullable column). -/
def postFkBroken (ps : List PostRow) (l : List AuthorRow) : Bool :=
  ps.any (fun p =>
    match p.author_id with
    | some a => !(l.any (fun x => x.id = a))
    | none => false)

/-- The first violated constraint of a candidate state, or `none` when
the state satisfies the schema.  The check order models the engine's:
user rows are flushed before author rows (users are inserted first in
every multi-table path of the source), not-null before unique, and
`pen_name` before `user_id` within the `authors` insert. -/
def violation (db : DB) : Option Constraint :=
  if db.users.any (fun u => u.email = none) then some .usersEmailNull
  else if db.users.any (fun u => u.password = none) then some .usersPasswordNull
  else if dupEmail db.users then some .usersEmailUnique
  else if dupPenName db.authors then some .authorsPenNameUnique
  else if dupUserId db.authors then some .authorsUserIdUnique
  else if postFkBroken db.posts db.authors then some .postsAuthorFk
  else none

/-- The failure outcomes of the embedded operations: a Python
`ValueError`, an uncaught SQLAlchemy `IntegrityError` (which FastAPI
surfaces as a 500, not as a domain error), and a raised
`HTTPException status detail`. -/
inductive Err where
  | valueError (msg : String)
  | integrityError (c : Constraint)
  | httpException (status : Nat) (detail : String)
deriving Repr, DecidableEq

/-- Prefix test on character lists (helper for substring search). -/
def listIsPref : List Char → List Char → Bool
  | [], _ => true
  | _ :: _, [] => false
  | a :: as, b :: bs => a = b && listIsPref as bs

/-- Substring test on character lists, modelling Python's
`needle in haystack`. -/
def listHasSub (needle : List Char) : List Char → Bool
  | [] => needle.isEmpty
  | h :: t => listIsPref needle (h :: t) || listHasSub needle t

/-- Python `needle in haystack` on strings. -/
def strHasSub (needle haystack : String) : Bool :=
  listHasSub needle.toList haystack.toList

/-- The message-selection chain of `create_author_with_user`
(src/routers/authors.py lines 73-81): inspect the lower-cased driver
message, with precedence email, then pen_name, then user_id, then the
generic fallback. -/
def conflictMessage (c : Constraint) : String :=
  let err := errStr c
  if strHasSub "ix_users_email" err || strHasSub "email" err then
    "Email already exists"
  else if strHasSub "ix_authors_pen_name" err || strHasSub "pen_name" err then
    "Pen name already exists"
  else if strHasSub "user_id" err then
    "Author for this user already exists"
  else
    "Duplicate or invalid data"

/-! ## User CRUD (src/routers/users.py) -/

/-- A validated `UserCreate` payload (src/routers/users.py lines
50-63): `email` and `password` are required strings, `phone_number`
optional. -/
structure UserCreate where
  email : String
  password : String
  phone_number : Option String
deriving Repr, DecidableEq

/-- A validated `UserUpdate` payload after
`model_dump(exclude_unset=True)` (src/routers/users.py lines 76-109,
152): the outer `Option` records whether the field was present in the
request, the inner one a JSON `null` (which the update validators pass
through). -/
structure UserUpdate where
  email : Option (Option String)
  phone_number : Option (Option String)
  password : Option (Option String)
deriving Repr, DecidableEq

/-- `get_user_by_id` (src/routers/users.py lines 132-133). -/
def get_user_by_id (db : DB) (id : Nat) : Option UserRow :=
  db.users.find? (fun u => u.id = id)

/-- `create_user` (src/routers/users.py lines 124-129): insert a row
with default role 0 and commit; an `IntegrityError` is NOT caught
here, so it propagates with the insert discarded. -/
def create_user (db : DB) (user : UserCreate) : DB × Except Err UserRow :=
  let new_user : UserRow :=
    { id := db.nextUserId, email := some user.email,
      password := some user.password, phone_number := user.phone_number,
      role := 0, created_at := db.clock, updated_at := db.clock }
  let cand := { db with users := db.users ++ [new_user],
                        nextUserId := db.nextUserId + 1 }
  match violation cand with
  | some c => (db, Except.error (Err.integrityError c))
  | none => (cand, Except.ok new_user)

/-- The field application loop of `update_user_by_id` (src/routers/
users.py lines 152-165): `exclude_unset` keeps exactly the provided
fields; the blocked set `{id, created_at, updated_at}` and the
`hasattr` filter remove nothing because the `UserUpdate` schema only
declares `email`, `phone_number` and `password`. -/
def applyUserUpdate (u : UserRow) (p : UserUpdate) : UserRow :=
  { u with
    email := match p.email with | some v => v | none => u.email
    phone_number := match p.phone_number with | some v => v | none => u.phone_number
    password := match p.password with | some v => v | none => u.password }

/-- `update_user_by_id` (src/routers/users.py lines 146-174): `none`
for a missing user; on `IntegrityError` the transaction is rolled back
and the error re-raised (the route does not catch it). -/
def update_user_by_id (db : DB) (id : Nat) (p : UserUpdate) :
    DB × Except Err (Option UserRow) :=
  match get_user_by_id db id with
  | none => (db, Except.ok none)
  | some u =>
    let u' := applyUserUpdate u p
    let cand := { db with users := db.users.map (fun w => if w.id = id then u' else w) }
    match violation cand with
    | some c => (db, Except.error (Err.integrityError c))
    | none => (cand, Except.ok (some u'))

/-- Route `PATCH /users/{id}` (src/routers/users.py lines 242-249):
a `none` result becomes 404; any `IntegrityError` from the CRUD layer
passes through uncaught. -/
def update_user (db : DB) (id : Nat) (p : UserUpdate) : DB × Except Err UserRow :=
  match update_user_by_id db id p with
  | (db', Except.ok none) => (db', Except.error (Err.httpException 404 "User not found"))
  | (db', Except.ok (some u)) => (db', Except.ok u)
  | (db', Except.error e) => (db', Except.error e)

/-- The generated default pen name `f'Author_{db_user.id}'`
(src/routers/users.py line 203). -/
def defaultPenName (id : Nat) : String :=
  s!"Author_{id}"

/-- `upgrade_user_role_by_id` (src/routers/users.py lines 190-213):
set the role; for `new_role = 1` additionally require that no Author
row exists for the user (else `ValueError`, raised before any commit,
so the pending role change is discarded) and insert an Author row with
the generated pen name; one commit persists both changes or an
`IntegrityError` rolls both back. -/
def upgrade_user_role_by_id (db : DB) (id : Nat) (new_role : Nat) :
    DB × Except Err (Option UserRow) :=
  match get_user_by_id db id with
  | none => (db, Except.ok none)
  | some u =>
    let u' := { u with role := new_role }
    let dbPending := { db with users := db.users.map (fun w => if w.id = id then u' else w) }
    if new_role = 1 then
      if db.authors.any (fun a => a.user_id = u.id) then
        (db, Except.error (Err.valueError "User is already an author"))
      else
        let new_author : AuthorRow :=
          { id := db.nextAuthorId, pen_name := defaultPenName u.id,
            bio := none, user_id := u.id }
        let cand := { dbPending with authors := dbPending.authors ++ [new_author],
                                     nextAuthorId := dbPending.nextAuthorId + 1 }
        match violation cand with
        | some c => (db, Except.error (Err.integrityError c))
        | none => (cand, Except.ok (some u'))
    else
      match violation dbPending with
      | some c => (db, Except.error (Err.integrityError c))
      | none => (dbPending, Except.ok (some u'))

/-- Route `PATCH /users/{user_id}/role` (src/routers/users.py lines
259-276): a `ValueError` becomes HTTP 409, a missing user 404; an
`IntegrityError` passes through uncaught. -/
def upgrade_user_role (db : DB) (user_id : Nat) (role : Nat) :
    DB × Except Err UserRow :=
  match upgrade_user_role_by_id db user_id role with
  | (db', Except.error (Err.valueError m)) =>
    (db', Except.error (Err.httpException 409 m))
  | (db', Except.error e) => (db', Except.error e)
  | (db', Except.ok none) => (db', Except.error (Err.httpException 404 "User not found"))
  | (db', Except.ok (some u)) => (db', Except.ok u)

/-! ## Author CRUD (src/routers/authors.py) -/

/-- `AuthorCreate` payload (src/routers/authors.py lines 16-19). -/
structure AuthorCreate where
  pen_name : String
  profile : UserCreate
  bio : Option String
deriving Repr, DecidableEq

/-- `AuthorUpdate` payload (src/routers/authors.py lines 22-24): both
fields default to `None`; the route does not use `exclude_unset`, so a
missing field and an explicit `null` are the same value here. -/
structure AuthorUpdate where
  pen_name : Option String
  bio : Option String
deriving Repr, DecidableEq

/-- `create_author_with_user` (src/routers/authors.py lines 45-83):
insert the user (role 1) and flush, insert the linked author and
commit; any `IntegrityError` rolls the whole transaction back and is
re-raised as HTTP 400 with the message selected by `conflictMessage`. -/
def create_author_with_user (db : DB) (payload : AuthorCreate) :
    DB × Except Err AuthorRow :=
  let new_user : UserRow :=
    { id := db.nextUserId, email := some payload.profile.email,
      password := some payload.profile.password,
      phone_number := payload.profile.phone_number,
      role := 1, created_at := db.clock, updated_at := db.clock }
  let db1 := { db with users := db.users ++ [new_user],
                       nextUserId := db.nextUserId + 1 }
  match violation db1 with
  | some c => (db, Except.error (Err.httpException 400 (conflictMessage c)))
  | none =>
    let new_author : AuthorRow :=
      { id := db1.nextAuthorId, pen_name := payload.pen_name,
        bio := payload.bio, user_id := new_user.id }
    let db2 := { db1 with authors := db1.authors ++ [new_author],
                          nextAuthorId := db1.nextAuthorId + 1 }
    match violation db2 with
    | some c => (db, Except.error (Err.httpException 400 (conflictMessage c)))
    | none => (db2, Except.ok new_author)

/-- The field assignments of `update_author` (src/routers/authors.py
lines 150-153): Python `author_data.pen_name or author.pen_name`
keeps the stored value when the supplied one is falsy (`None` or the
empty string), and likewise for `bio`. -/
def applyAuthorUpdate (a : AuthorRow) (p : AuthorUpdate) : AuthorRow :=
  { a with
    pen_name := match p.pen_name with
      | some s => if s = "" then a.pen_name else s
      | none => a.pen_name
    bio := match p.bio with
      | some s => if s = "" then a.bio else some s
      | none => a.bio }

/-- `update_author` (src/routers/authors.py lines 142-162): 404 when
the author is missing; otherwise apply the falsy-keeps-old updates and
commit, turning an `IntegrityError` into HTTP 400 after rollback. -/
def update_author (db : DB) (author_id : Nat) (p : AuthorUpdate) :
    DB × Except Err AuthorRow :=
  match db.authors.find? (fun a => a.id = author_id) with
  | none => (db, Except.error (Err.httpException 404 "Author not found"))
  | some a =>
    let a' := applyAuthorUpdate a p
    let cand := { db with authors := db.authors.map (fun w => if w.id = author_id then a' else w) }
    match violation cand with
    | some _ => (db, Except.error (Err.httpException 400 "Duplicate or invalid data"))
    | none => (cand, Except.ok a')

/-! ## Post CRUD (src/routers/posts.py) -/

/-- `PostCreate` payload (src/routers/posts.py lines 15-26): required
title, content and author_id, optional cover_url, credit, status and
sale_url. -/
structure PostCreate where
  title : String
  content : String
  author_id : Nat
  cover_url : Option String
  credit : Option String
  status : Option String
  sale_url : Option String
deriving Repr, DecidableEq

/-- `create_post` (src/routers/posts.py lines 47-56): the inserted row
is built from `title`, `content` and `author_id` only; the payload's
optional fields are not passed, so the columns take their model
defaults (`NULL`, and `PENDING` for `status`).  A commit failure
(e.g. the foreign key on `author_id`) propagates uncaught. -/
def create_post (db : DB) (payload : PostCreate) : DB × Except Err PostRow :=
  let new_post : PostRow :=
    { id := db.nextPostId, title := payload.title, content := payload.content,
      cover_url := none, credit := none, status := RequestStatus.PENDING,
      sale_url := none, author_id := some payload.author_id }
  let cand := { db with posts := db.posts ++ [new_post],
                        nextPostId := db.nextPostId + 1 }
  match violation cand with
  | some c => (db, Except.error (Err.integrityError c))
  | none => (cand, Except.ok new_post)

/-- `get_post_by_id` (src/routers/posts.py lines 59-60). -/
def get_post_by_id (db : DB) (post_id : Nat) : Option PostRow :=
  db.posts.find? (fun p => p.id = post_id)

/-- Route `GET /posts/{post_id}` (src/routers/posts.py lines 128-135):
the handler returns the lookup result directly — including `None` —
and raises no `HTTPException`. -/
def read_post (db : DB) (post_id : Nat) : DB × Except Err (Option PostRow) :=
  (db, Except.ok (get_post_by_id db post_id))

/-! ## Well-formed states

A reachable database state satisfies the schema, has internally unique
primary keys, auto-increment counters ahead of every stored id, and
author rows referencing existing users. -/

/-- Well-formedness of a database state. -/
def DB.wf (db : DB) : Prop :=
  violation db = none ∧
  (db.users.map (fun u => u.id)).Nodup ∧
  (db.authors.map (fun a => a.id)).Nodup ∧
  (∀ u ∈ db.users, u.id < db.nextUserId) ∧
  (∀ a ∈ db.authors, a.id < db.nextAuthorId) ∧
  (∀ a ∈ db.authors, ∃ u ∈ db.users, u.id = a.user_id)

instance (db : DB) : Decidable db.wf := by
  unfold DB.wf
  infer_instance

/-! ## Concrete states for witnesses and counterexamples -/

/-- The empty database. -/
def emptyDB : DB := ⟨[], [], [], 0, 0, 0, 0⟩

/-- A plain reader user with id 1. -/
def userA : UserRow := ⟨1, some "a@b.com", some "secret1", none, 0, 5, 5⟩

/-- A plain reader user with id 2. -/
def userB : UserRow := ⟨2, some "c@d.com", some "secret2", some "+12345678901", 0, 6, 6⟩

/-- Two reader users, no authors or posts. -/
def dbUsers2 : DB := ⟨[userA, userB], [], [], 3, 1, 1, 9⟩

/-- The state after creating the first "a@b.com" user in `emptyDB`. -/
def dbC3 : DB := ⟨[⟨0, some "a@b.com", some "secret1", none, 0, 0, 0⟩], [], [], 1, 0, 0, 0⟩

/-- User 1 with role 1. -/
def userAuthor1 : UserRow := ⟨1, some "a@b.com", some "secret1", none, 1, 5, 5⟩

/-- One author (id 1, user 1, pen name "Pen") and its user. -/
def dbAuthor : DB := ⟨[userAuthor1], [⟨1, "Pen", some "bio", 1⟩], [], 2, 2, 1, 9⟩

/-- Users 1 and 2, where user 2 already has an author whose pen name
is exactly the generated default for user 1. -/
def dbPenSquat : DB := ⟨[userA, userB], [⟨1, "Author_1", none, 2⟩], [], 3, 2, 1, 9⟩

/-- A post-creation payload supplying every optional field. -/
def postPayloadC5 : PostCreate :=
  ⟨"T", "C", 1, some "cover", some "credit", some "APPROVED", some "sale"⟩

/-! ## Helper lemmas -/

theorem breakAt_eq_some {c : Char} :
    ∀ {s l r : List Char}, breakAt c s = some (l, r) →
      s = l ++ c :: r ∧ ∀ x ∈ l, x ≠ c := by
  intro s
  induction s with
  | nil => intro l r h; simp [breakAt] at h
  | cons a as ih =>
    intro l r h
    by_cases hac : a = c
    · subst hac
      simp [breakAt] at h
      obtain ⟨hl, hr⟩ := h
      subst hl; subst hr
      exact ⟨rfl, by simp⟩
    · simp only [breakAt, if_neg hac] at h
      cases hb : breakAt c as with
      | none => rw [hb] at h; simp at h
      | some p =>
        obtain ⟨l', r'⟩ := p
        rw [hb] at h
        simp at h
        obtain ⟨hl, hr⟩ := h
        obtain ⟨hs, hnotin⟩ := ih hb
        subst hl; subst hr; subst hs
        refine ⟨rfl, ?_⟩
        intro x hx
        rcases List.mem_cons.mp hx with hxa | hxl
        · subst hxa; exact hac
        · exact hnotin x hxl

theorem breakAt_append {c : Char} (l r : List Char) (hl : ∀ x ∈ l, x ≠ c) :
    breakAt c (l ++ c :: r) = some (l, r) := by
  induction l with
  | nil => simp [breakAt]
  | cons a as ih =>
    have hac : a ≠ c := hl a (by simp)
    have ih' := ih (fun x hx => hl x (by simp [hx]))
    simp [breakAt, if_neg hac, ih']

theorem emailMatch_iff (s : List Char) : emailMatch s = true ↔ emailPattern s := by
  constructor
  · intro h
    unfold emailMatch at h
    cases hb : breakAt '@' s with
    | none => rw [hb] at h; simp at h
    | some p =>
      obtain ⟨l, r⟩ := p
      rw [hb] at h
      dsimp only at h
      obtain ⟨hs, -⟩ := breakAt_eq_some hb
      cases hb2 : breakAt '.' r.reverse with
      | none => rw [hb2] at h; simp at h
      | some q =>
        obtain ⟨tRev, dRev⟩ := q
        rw [hb2] at h
        dsimp only at h
        simp only [Bool.and_eq_true, Bool.not_eq_true', List.isEmpty_eq_false,
          List.all_eq_true, decide_eq_true_eq] at h
        obtain ⟨⟨hl, hlc⟩, ⟨⟨hd, hdc⟩, ht2⟩, htc⟩ := h
        obtain ⟨hs2, -⟩ := breakAt_eq_some hb2
        have hr : r = dRev.reverse ++ '.' :: tRev.reverse := by
          have h3 := congrArg List.reverse hs2
          simpa [List.reverse_append] using h3
        refine ⟨l, dRev.reverse, tRev.reverse, ?_, hl, hlc, ?_, ?_, ?_, ?_⟩
        · rw [hs, hr]
        · simp [hd]
        · intro x hx; exact hdc x (List.mem_reverse.mp hx)
        · simpa using ht2
        · intro x hx; exact htc x (List.mem_reverse.mp hx)
  · rintro ⟨l, d, t, rfl, hl, hlc, hd, hdc, ht2, htc⟩
    have h1 : ∀ x ∈ l, x ≠ '@' := by
      intro x hx he
      subst he
      have := hlc _ hx
      simp [isLocalChar] at this
    have hrev : (d ++ '.' :: t).reverse = t.reverse ++ '.' :: d.reverse := by
      simp [List.reverse_append]
    have h2 : ∀ x ∈ t.reverse, x ≠ '.' := by
      intro x hx he
      subst he
      have := htc _ (List.mem_reverse.mp hx)
      simp [Char.isAlpha, Char.isUpper, Char.isLower] at this
    unfold emailMatch
    rw [breakAt_append l (d ++ '.' :: t) h1]
    dsimp only
    rw [hrev, breakAt_append t.reverse d.reverse h2]
    dsimp only
    simp only [Bool.and_eq_true, Bool.not_eq_true', List.isEmpty_eq_false,
      List.all_eq_true, decide_eq_true_eq]
    exact ⟨⟨hl, hlc⟩,
      ⟨⟨by simp [hd], fun x hx => hdc x (List.mem_reverse.mp hx)⟩,
        by simpa using ht2⟩,
      fun x hx => htc x (List.mem_reverse.mp hx)⟩

theorem phoneMatch_iff (s : List Char) : phoneMatch s = true ↔ phonePattern s := by
  have hplus : ¬ ('1' ≤ '+' ∧ '+' ≤ '9') := by decide
  unfold phoneMatch phonePattern
  cases s with
  | nil =>
    constructor
    · intro h; simp at h
    · rintro ⟨c, cs, hor, -⟩
      rcases hor with h | h <;> simp at h
  | cons a rest =>
    dsimp only
    by_cases ha : a = '+'
    · subst ha
      rw [if_pos rfl]
      cases rest with
      | nil =>
        constructor
        · intro h; simp [phoneCore] at h
        · rintro ⟨c, cs, hor, hc, hlen, -⟩
          rcases hor with h | h
          · obtain ⟨h1, h2⟩ := List.cons.inj h
            subst h1; exact absurd hc hplus
          · simp at h
      | cons c cs =>
        simp only [phoneCore, Bool.and_eq_true, List.all_eq_true,
          decide_eq_true_eq]
        constructor
        · rintro ⟨⟨h12, hlen⟩, hdig⟩
          exact ⟨c, cs, Or.inr rfl, h12, hlen, hdig⟩
        · rintro ⟨c', cs', hor, hc', hlen', hdig'⟩
          rcases hor with h | h
          · obtain ⟨h1, h2⟩ := List.cons.inj h
            subst h1; exact absurd hc' hplus
          · obtain ⟨-, h2⟩ := List.cons.inj h
            obtain ⟨h3, h4⟩ := List.cons.inj h2
            subst h3; subst h4
            exact ⟨⟨hc', hlen'⟩, hdig'⟩
    · rw [if_neg ha]
      cases hrest : rest with
      | nil =>
        simp only [phoneCore, Bool.and_eq_true, List.all_eq_true,
          decide_eq_true_eq]
        constructor
        · rintro ⟨⟨-, hlen⟩, -⟩
          simp at hlen
        · rintro ⟨c', cs', hor, hc', hlen', hdig'⟩
          rcases hor with h | h
          · obtain ⟨h1, h2⟩ := List.cons.inj h
            subst h1; subst h2
            simp at hlen'
          · obtain ⟨h1, -⟩ := List.cons.inj h
            exact absurd h1 ha
      | cons c cs =>
        subst hrest
        simp only [phoneCore, Bool.and_eq_true, List.all_eq_true,
          decide_eq_true_eq]
        constructor
        · rintro ⟨⟨hc, hlen⟩, hdig⟩
          exact ⟨a, c :: cs, Or.inl rfl, hc, hlen, hdig⟩
        · rintro ⟨c', cs', hor, hc', hlen', hdig'⟩
          rcases hor with h | h
          · obtain ⟨h1, h2⟩ := List.cons.inj h
            subst h1; subst h2
            exact ⟨⟨hc', hlen'⟩, hdig'⟩
          · obtain ⟨h1, -⟩ := List.cons.inj h
            exact absurd h1 ha

/-- C6: email validation trims its input, accepts exactly the strings
whose trimmed form matches the `local@domain.tld` pattern of
`EMAIL_REGEX`, returns the lower-cased trimmed string on acceptance,
and rejects every other string with a `ValidationError`; as a pure
function of the input it has no side effects. -/
theorem claim_C6_email_validation (v : String) :
    (validate_email v = Except.ok (String.mk (pyLower (pyStrip v.toList))) ↔
      emailPattern (pyStrip v.toList)) ∧
    (validate_email v = Except.error "Invalid email address" ↔
      ¬ emailPattern (pyStrip v.toList)) := by
  have hiff := emailMatch_iff (pyStrip v.toList)
  unfold validate_email
  by_cases h : emailMatch (pyStrip v.toList) = true
  · have hp := hiff.mp h
    rw [if_pos h]
    constructor
    · exact ⟨fun _ => hp, fun _ => rfl⟩
    · constructor
      · intro he; exact absurd he (by simp)
      · intro hn; exact absurd hp hn
  · have hp : ¬ emailPattern (pyStrip v.toList) := fun hq => h (hiff.mpr hq)
    rw [if_neg h]
    constructor
    · constructor
      · intro he; exact absurd he (by simp)
      · intro hq; exact absurd hq hp
    · exact ⟨fun _ => hp, fun _ => rfl⟩

/-- C8 counterexample: the string "01234567890" consists of exactly
eleven numeric digits (no leading plus), so the claimed pattern
accepts it, yet `validate_phone_number` rejects it — `PHONE_REGEX`
requires the first digit to be non-zero. -/
theorem claim_C8_counterexample :
    claimPhonePattern (pyStrip "01234567890".toList) = true ∧
    validate_phone_number (some "01234567890") =
      Except.error "Invalid phone number format" := by
  decide

/-- C8 (amended): phone validation trims its input and accepts exactly
the strings consisting of an optional leading plus followed by eleven
numeric digits the first of which is non-zero (in 1-9), returning the
trimmed string; all other strings are rejected with a
`ValidationError`. -/
theorem claim_C8_phone_validation (s : String) :
    (validate_phone_number (some s) =
        Except.ok (some (String.mk (pyStrip s.toList))) ↔
      phonePattern (pyStrip s.toList)) ∧
    (validate_phone_number (some s) =
        Except.error "Invalid phone number format" ↔
      ¬ phonePattern (pyStrip s.toList)) := by
  have hiff := phoneMatch_iff (pyStrip s.toList)
  unfold validate_phone_number
  dsimp only
  by_cases h : phoneMatch (pyStrip s.toList) = true
  · have hp := hiff.mp h
    rw [if_pos h]
    constructor
    · exact ⟨fun _ => hp, fun _ => rfl⟩
    · constructor
      · intro he; exact absurd he (by simp)
      · intro hn; exact absurd hp hn
  · have hp : ¬ phonePattern (pyStrip s.toList) := fun hq => h (hiff.mpr hq)
    rw [if_neg h]
    constructor
    · constructor
      · intro he; exact absurd he (by simp)
      · intro hq; exact absurd hq hp
    · exact ⟨fun _ => hp, fun _ => rfl⟩

theorem violation_eq_none {db : DB} :
    violation db = none ↔
      db.users.any (fun u => u.email = none) = false ∧
      db.users.any (fun u => u.password = none) = false ∧
      dupEmail db.users = false ∧
      dupPenName db.authors = false ∧
      dupUserId db.authors = false ∧
      postFkBroken db.posts db.authors = false := by
  unfold violation
  split_ifs with h1 h2 h3 h4 h5 h6 <;> simp_all

theorem ite_userRow_role_email (c : Prop) [Decidable c] (u : UserRow) (r : Nat) :
    (if c then { u with role := r } else u).email = u.email := by
  split <;> rfl

theorem ite_userRow_role_password (c : Prop) [Decidable c] (u : UserRow) (r : Nat) :
    (if c then { u with role := r } else u).password = u.password := by
  split <;> rfl

theorem any_email_none_map_role (us : List UserRow) (id r : Nat) :
    (us.map (fun w => if w.id = id then { w with role := r } else w)).any
        (fun u => u.email = none) = us.any (fun u => u.email = none) := by
  rw [List.any_map]
  congr 1
  funext w
  by_cases h : w.id = id <;> simp [Function.comp, h]

theorem any_password_none_map_role (us : List UserRow) (id r : Nat) :
    (us.map (fun w => if w.id = id then { w with role := r } else w)).any
        (fun u => u.password = none) = us.any (fun u => u.password = none) := by
  rw [List.any_map]
  congr 1
  funext w
  by_cases h : w.id = id <;> simp [Function.comp, h]

theorem dupEmail_map_role (us : List UserRow) (id r : Nat) :
    dupEmail (us.map (fun w => if w.id = id then { w with role := r } else w)) =
      dupEmail us := by
  unfold dupEmail
  rw [List.filterMap_map]
  have hfun : ((fun u : UserRow => u.email) ∘
      (fun w : UserRow => if w.id = id then { w with role := r } else w)) =
        fun u : UserRow => u.email := by
    funext w
    by_cases h : w.id = id <;> simp [Function.comp, h]
  rw [hfun]

theorem nodup_concat {α : Type} (l : List α) (x : α) :
    (l ++ [x]).Nodup ↔ x ∉ l ∧ l.Nodup := by
  rw [(List.perm_append_singleton x l).nodup_iff, List.nodup_cons]

theorem postFkBroken_mono (ps : List PostRow) (l l2 : List AuthorRow)
    (h : postFkBroken ps l = false) : postFkBroken ps (l ++ l2) = false := by
  unfold postFkBroken at h ⊢
  rw [List.any_eq_false] at h ⊢
  intro p hp
  have hx := h p hp
  cases hpa : p.author_id with
  | none => simp
  | some a =>
    rw [hpa] at hx
    simp only [Bool.not_eq_true'] at hx ⊢
    rw [Bool.not_eq_false] at hx ⊢
    rw [List.any_append, hx, Bool.true_or]

theorem postFkBroken_append_posts (ps : List PostRow) (np : PostRow)
    (l : List AuthorRow) :
    postFkBroken (ps ++ [np]) l =
      (postFkBroken ps l ||
        match np.author_id with
        | some a => !(l.any (fun x => x.id = a))
        | none => false) := by
  unfold postFkBroken
  rw [List.any_append]
  simp

theorem userRow_eq_of_find (us : List UserRow) (id : Nat) (u w : UserRow)
    (hnd : (us.map (fun x => x.id)).Nodup)
    (hu : us.find? (fun x => x.id = id) = some u)
    (hw : w ∈ us) (hid : w.id = id) : w = u := by
  have hu_mem : u ∈ us := List.mem_of_find?_eq_some hu
  have hu_id : u.id = id := by simpa using List.find?_some hu
  exact List.inj_on_of_nodup_map hnd hw hu_mem (by rw [hid, hu_id])

theorem map_replace_eq_map_role (us : List UserRow) (id r : Nat) (u : UserRow)
    (hW : ∀ w ∈ us, w.id = id → w = u) :
    us.map (fun w => if w.id = id then { u with role := r } else w)
      = us.map (fun w => if w.id = id then { w with role := r } else w) := by
  induction us with
  | nil => rfl
  | cons w ws ih =>
    simp only [List.map_cons, List.cons.injEq]
    constructor
    · by_cases h : w.id = id
      · rw [if_pos h, if_pos h, hW w (by simp) h]
      · rw [if_neg h, if_neg h]
    · exact ih (fun x hx => hW x (by simp [hx]))

theorem dupEmail_false_iff (us : List UserRow) :
    dupEmail us = false ↔ (us.filterMap (fun u => u.email)).Nodup := by
  unfold dupEmail
  simp [decide_eq_false_iff_not, not_not]

theorem dupEmail_true_iff (us : List UserRow) :
    dupEmail us = true ↔ ¬ (us.filterMap (fun u => u.email)).Nodup := by
  unfold dupEmail
  simp

theorem dupPenName_false_iff (l : List AuthorRow) :
    dupPenName l = false ↔ (l.map (fun a => a.pen_name)).Nodup := by
  unfold dupPenName
  simp [decide_eq_false_iff_not, not_not]

theorem dupPenName_true_iff (l : List AuthorRow) :
    dupPenName l = true ↔ ¬ (l.map (fun a => a.pen_name)).Nodup := by
  unfold dupPenName
  simp

theorem dupUserId_false_iff (l : List AuthorRow) :
    dupUserId l = false ↔ (l.map (fun a => a.user_id)).Nodup := by
  unfold dupUserId
  simp [decide_eq_false_iff_not, not_not]

/-! ## Claim theorems -/

/-- C4: the post read route does not translate a missing post into
NotFound — for every state and absent post id, `GET /posts/{id}`
returns the null lookup result with no `HTTPException`, so the claimed
404 is never produced. -/
theorem claim_C4_read_post_absent (db : DB) (post_id : Nat)
    (h : db.posts.find? (fun p => p.id = post_id) = none) :
    read_post db post_id = (db, Except.ok none) := by
  unfold read_post get_post_by_id
  rw [h]

/-- C4 witness: reading post 1 in the empty database yields `ok none`
rather than a NotFound error. -/
theorem claim_C4_witness :
    read_post emptyDB 1 = (emptyDB, Except.ok none) :=
  claim_C4_read_post_absent emptyDB 1 rfl

/-- C3 evaluated at the failing input: creating "a@b.com" twice — the
first call succeeds and the new row has role 0; the second call is
rejected by the email uniqueness constraint with the first row left
unchanged, but it surfaces as an uncaught `IntegrityError` (HTTP 500),
not as the claimed domain Conflict error. -/
theorem claim_C3_duplicate_email_eval :
    create_user emptyDB ⟨"a@b.com", "secret1", none⟩ =
      (dbC3, Except.ok ⟨0, some "a@b.com", some "secret1", none, 0, 0, 0⟩) ∧
    create_user dbC3 ⟨"a@b.com", "secret2", none⟩ =
      (dbC3, Except.error (Err.integrityError Constraint.usersEmailUnique)) := by
  decide

/-- C7 evaluated at concrete inputs: a partial update applies exactly
the provided field (phone), keeping email, password, id, created_at
and updated_at; an update colliding with another user's unique email
is rolled back leaving every row unchanged — but it is re-raised as an
uncaught `IntegrityError` (HTTP 500), both from the CRUD function and
through the route, not as the claimed Conflict error. -/
theorem claim_C7_update_user_eval :
    update_user_by_id dbUsers2 2 ⟨none, some (some "+19876543210"), none⟩ =
      ({ dbUsers2 with
          users := [userA, { userB with phone_number := some "+19876543210" }] },
        Except.ok (some { userB with phone_number := some "+19876543210" })) ∧
    update_user_by_id dbUsers2 2 ⟨some (some "a@b.com"), none, none⟩ =
      (dbUsers2, Except.error (Err.integrityError Constraint.usersEmailUnique)) ∧
    update_user dbUsers2 2 ⟨some (some "a@b.com"), none, none⟩ =
      (dbUsers2, Except.error (Err.integrityError Constraint.usersEmailUnique)) := by
  decide

/-- C5 counterexample: a creation payload supplying cover_url, credit,
status "APPROVED" and sale_url produces a stored row whose cover_url,
credit and sale_url are NULL and whose status is PENDING — the
supplied optional values are not stored. -/
theorem claim_C5_counterexample :
    postPayloadC5.cover_url = some "cover" ∧
    postPayloadC5.status = some "APPROVED" ∧
    postPayloadC5.sale_url = some "sale" ∧
    (create_post dbAuthor postPayloadC5).2 =
      Except.ok ⟨1, "T", "C", none, none, RequestStatus.PENDING, none, some 1⟩ := by
  decide

/-- C5 (amended): for every well-formed state and payload whose
author_id exists, the created Post row stores the given title, content
and author_id, while the payload's optional cover_url, credit, status
and sale_url are ignored: the row is stored with NULL cover_url,
credit and sale_url and status PENDING regardless of what was
supplied. -/
theorem claim_C5_create_post_defaults (db : DB) (p : PostCreate)
    (hwf : db.wf) (hauth : db.authors.any (fun a => a.id = p.author_id) = true) :
    create_post db p =
      ({ db with
          posts := db.posts ++
            [⟨db.nextPostId, p.title, p.content, none, none,
              RequestStatus.PENDING, none, some p.author_id⟩],
          nextPostId := db.nextPostId + 1 },
        Except.ok ⟨db.nextPostId, p.title, p.content, none, none,
          RequestStatus.PENDING, none, some p.author_id⟩) := by
  obtain ⟨hv, -⟩ := hwf
  rw [violation_eq_none] at hv
  obtain ⟨h1, h2, h3, h4, h5, h6⟩ := hv
  have hfk : postFkBroken
      (db.posts ++ [⟨db.nextPostId, p.title, p.content, none, none,
        RequestStatus.PENDING, none, some p.author_id⟩]) db.authors = false := by
    rw [postFkBroken_append_posts]
    dsimp only
    rw [h6, hauth]
    rfl
  unfold create_post
  dsimp only
  have hvc : violation
      { db with
        posts := db.posts ++
          [⟨db.nextPostId, p.title, p.content, none, none,
            RequestStatus.PENDING, none, some p.author_id⟩],
        nextPostId := db.nextPostId + 1 } = none :=
    violation_eq_none.mpr ⟨h1, h2, h3, h4, h5, hfk⟩
  rw [hvc]

/-- C5 witness: creating a post for the existing author 1 of
`dbAuthor` stores the row with defaulted optional columns. -/
theorem claim_C5_witness :
    create_post dbAuthor postPayloadC5 =
      ({ dbAuthor with
          posts := dbAuthor.posts ++
            [⟨dbAuthor.nextPostId, postPayloadC5.title, postPayloadC5.content,
              none, none, RequestStatus.PENDING, none,
              some postPayloadC5.author_id⟩],
          nextPostId := dbAuthor.nextPostId + 1 },
        Except.ok ⟨dbAuthor.nextPostId, postPayloadC5.title,
          postPayloadC5.content, none, none, RequestStatus.PENDING, none,
          some postPayloadC5.author_id⟩) :=
  claim_C5_create_post_defaults dbAuthor postPayloadC5 (by decide) (by decide)

/-- C9: in an author update, a pen_name or bio supplied as None or as
the empty string leaves the stored field unchanged (the Python `or`
treats both as falsy), so neither field can be cleared to empty or
null through the update; the row stored on success is exactly
`applyAuthorUpdate`, and on a constraint violation the state rolls
back unchanged. -/
theorem claim_C9_author_update_preserves (db : DB) (author_id : Nat)
    (p : AuthorUpdate) (a : AuthorRow)
    (ha : db.authors.find? (fun x => x.id = author_id) = some a) :
    ((p.pen_name = none ∨ p.pen_name = some "") →
      (applyAuthorUpdate a p).pen_name = a.pen_name) ∧
    ((p.bio = none ∨ p.bio = some "") →
      (applyAuthorUpdate a p).bio = a.bio) ∧
    (a.pen_name ≠ "" → (applyAuthorUpdate a p).pen_name ≠ "") ∧
    (a.bio ≠ none → a.bio ≠ some "" →
      (applyAuthorUpdate a p).bio ≠ none ∧ (applyAuthorUpdate a p).bio ≠ some "") ∧
    (update_author db author_id p =
        ({ db with authors := db.authors.map (fun w =>
            if w.id = author_id then applyAuthorUpdate a p else w) },
          Except.ok (applyAuthorUpdate a p)) ∨
      update_author db author_id p =
        (db, Except.error (Err.httpException 400 "Duplicate or invalid data"))) := by
  refine ⟨?_, ?_, ?_, ?_, ?_⟩
  · rintro (h | h) <;> simp [applyAuthorUpdate, h]
  · rintro (h | h) <;> simp [applyAuthorUpdate, h]
  · intro hne
    cases hp : p.pen_name with
    | none => simpa [applyAuthorUpdate, hp] using hne
    | some s =>
      by_cases hs : s = "" <;> simp [applyAuthorUpdate, hp, hs]
      all_goals assumption
  · intro hn hn'
    cases hp : p.bio with
    | none =>
      simp only [applyAuthorUpdate, hp]
      exact ⟨hn, hn'⟩
    | some s =>
      by_cases hs : s = ""
      · simp only [applyAuthorUpdate, hp, hs, if_pos rfl]
        exact ⟨hn, hn'⟩
      · simp [applyAuthorUpdate, hp, hs]
  · unfold update_author
    rw [ha]
    dsimp only
    cases hv : violation { db with authors := db.authors.map (fun w =>
        if w.id = author_id then applyAuthorUpdate a p else w) } with
    | some c => exact Or.inr rfl
    | none => exact Or.inl rfl

/-- C9 witness: updating author 1 of `dbAuthor` with an empty pen_name
and a null bio keeps both stored values. -/
theorem claim_C9_witness :
    (applyAuthorUpdate ⟨1, "Pen", some "bio", 1⟩ ⟨some "", none⟩).pen_name = "Pen" ∧
    (applyAuthorUpdate ⟨1, "Pen", some "bio", 1⟩ ⟨some "", none⟩).bio = some "bio" := by
  have h := claim_C9_author_update_preserves dbAuthor 1 ⟨some "", none⟩
    ⟨1, "Pen", some "bio", 1⟩ (by decide)
  exact ⟨h.1 (Or.inr rfl), h.2.1 (Or.inl rfl)⟩

/-- C10: for a well-formed state and an existing user, a role upgrade
to 0 or 2 takes the non-author branch: it succeeds, rewrites only that
user's role field, and leaves the authors and posts tables untouched —
in particular an existing Author row survives a downgrade to role 0. -/
theorem claim_C10_role_change_frame (db : DB) (id new_role : Nat) (u : UserRow)
    (hwf : db.wf) (hu : get_user_by_id db id = some u)
    (hr : new_role = 0 ∨ new_role = 2) :
    upgrade_user_role db id new_role =
      ({ db with users := db.users.map (fun w =>
          if w.id = id then { w with role := new_role } else w) },
        Except.ok { u with role := new_role }) ∧
    ({ db with users := db.users.map (fun w =>
        if w.id = id then { w with role := new_role } else w) } : DB).authors
      = db.authors ∧
    ({ db with users := db.users.map (fun w =>
        if w.id = id then { w with role := new_role } else w) } : DB).posts
      = db.posts := by
  obtain ⟨hv, hndU, -⟩ := hwf
  rw [violation_eq_none] at hv
  obtain ⟨h1, h2, h3, h4, h5, h6⟩ := hv
  have hne : ¬ (new_role = 1) := by rcases hr with h | h <;> omega
  have hu' : db.users.find? (fun x => x.id = id) = some u := hu
  have hid : u.id = id := by simpa using List.find?_some hu'
  subst hid
  have hW : ∀ w ∈ db.users, w.id = u.id → w = u := fun w hw hwid =>
    userRow_eq_of_find db.users u.id u w hndU hu' hw hwid
  have hmap := map_replace_eq_map_role db.users u.id new_role u hW
  have hvp : violation { db with users := db.users.map (fun w =>
      if w.id = u.id then { w with role := new_role } else w) } = none := by
    refine violation_eq_none.mpr ⟨?_, ?_, ?_, h4, h5, h6⟩
    · exact (any_email_none_map_role db.users u.id new_role).trans h1
    · exact (any_password_none_map_role db.users u.id new_role).trans h2
    · exact (dupEmail_map_role db.users u.id new_role).trans h3
  unfold upgrade_user_role upgrade_user_role_by_id
  rw [hu]
  dsimp only
  rw [if_neg hne, hmap, hvp]
  exact ⟨rfl, rfl, rfl⟩

/-- C10 witness: downgrading the author user 1 of `dbAuthor` to role 0
succeeds and keeps the Author row. -/
theorem claim_C10_witness :
    upgrade_user_role dbAuthor 1 0 =
      ({ dbAuthor with users := dbAuthor.users.map (fun w =>
          if w.id = 1 then { w with role := 0 } else w) },
        Except.ok { userAuthor1 with role := 0 }) ∧
    ({ dbAuthor with users := dbAuthor.users.map (fun w =>
        if w.id = 1 then { w with role := 0 } else w) } : DB).authors
      = dbAuthor.authors ∧
    ({ dbAuthor with users := dbAuthor.users.map (fun w =>
        if w.id = 1 then { w with role := 0 } else w) } : DB).posts
      = dbAuthor.posts :=
  claim_C10_role_change_frame dbAuthor 1 0 userAuthor1 (by decide) (by decide)
    (Or.inl rfl)

/-- C1 counterexample: user 1 exists and has no Author row, so the
claim asserts `UpgradeRole(1, 1)` succeeds — but another user's author
already holds the generated pen name "Author_1", so the commit hits
the pen-name uniqueness constraint, everything is rolled back, and an
uncaught `IntegrityError` escapes instead. -/
theorem claim_C1_counterexample :
    (dbPenSquat.users.any (fun w => w.id = 1)) = true ∧
    (dbPenSquat.authors.any (fun a => a.user_id = 1)) = false ∧
    upgrade_user_role dbPenSquat 1 1 =
      (dbPenSquat, Except.error (Err.integrityError Constraint.authorsPenNameUnique)) := by
  decide

/-- C1 (amended): for a well-formed state and an existing user `id`
with no Author row, provided additionally that no author already holds
the generated pen name `Author_<id>`, `UpgradeRole(id, 1)` atomically
sets the role to 1 and appends exactly one Author row with pen name
`Author_<id>` and user_id `id`; if an author with that pen name exists
the call fails with an uncaught `IntegrityError` after rollback; and
if an Author row already exists for the user the call fails with HTTP
409 Conflict, every row — including the earlier Author row — left
unchanged. -/
theorem claim_C1_upgrade_role_author (db : DB) (id : Nat) (u : UserRow)
    (hwf : db.wf) (hu : get_user_by_id db id = some u) :
    ((∃ a ∈ db.authors, a.user_id = id) →
        upgrade_user_role db id 1 =
          (db, Except.error (Err.httpException 409 "User is already an author"))) ∧
    ((¬ ∃ a ∈ db.authors, a.user_id = id) →
      (∃ a ∈ db.authors, a.pen_name = defaultPenName id) →
        upgrade_user_role db id 1 =
          (db, Except.error (Err.integrityError Constraint.authorsPenNameUnique))) ∧
    ((¬ ∃ a ∈ db.authors, a.user_id = id) →
      (¬ ∃ a ∈ db.authors, a.pen_name = defaultPenName id) →
        upgrade_user_role db id 1 =
          ({ db with
              users := db.users.map (fun w =>
                if w.id = id then { w with role := 1 } else w),
              authors := db.authors ++
                [⟨db.nextAuthorId, defaultPenName id, none, id⟩],
              nextAuthorId := db.nextAuthorId + 1 },
            Except.ok { u with role := 1 })) := by
  obtain ⟨hv, hndU, hndA, hltU, hltA, hfk2⟩ := hwf
  rw [violation_eq_none] at hv
  obtain ⟨h1, h2, h3, h4, h5, h6⟩ := hv
  have hu' : db.users.find? (fun x => x.id = id) = some u := hu
  have hid : u.id = id := by simpa using List.find?_some hu'
  subst hid
  have hW : ∀ w ∈ db.users, w.id = u.id → w = u := fun w hw hwid =>
    userRow_eq_of_find db.users u.id u w hndU hu' hw hwid
  have hmap := map_replace_eq_map_role db.users u.id 1 u hW
  refine ⟨?_, ?_, ?_⟩
  · intro hex
    have hexb : (db.authors.any fun a => decide (a.user_id = u.id)) = true := by
      simp only [List.any_eq_true, decide_eq_true_eq]
      exact hex
    unfold upgrade_user_role upgrade_user_role_by_id
    rw [hu]
    dsimp only
    rw [if_pos rfl, if_pos hexb]
  · intro hnex hpen
    have hcond : ¬ ((db.authors.any fun a => decide (a.user_id = u.id)) = true) := by
      simp only [List.any_eq_true, decide_eq_true_eq]
      exact hnex
    have hpenmem : defaultPenName u.id ∈ db.authors.map (fun a => a.pen_name) := by
      obtain ⟨a, ha, hap⟩ := hpen
      exact List.mem_map.mpr ⟨a, ha, hap⟩
    have hdup : dupPenName (db.authors ++
        [⟨db.nextAuthorId, defaultPenName u.id, none, u.id⟩]) = true := by
      rw [dupPenName_true_iff, List.map_append]
      dsimp only [List.map_cons, List.map_nil]
      rw [nodup_concat]
      intro hcontra
      exact hcontra.1 hpenmem
    have hvc : violation { db with
        users := db.users.map (fun w =>
          if w.id = u.id then { w with role := 1 } else w),
        authors := db.authors ++
          [⟨db.nextAuthorId, defaultPenName u.id, none, u.id⟩],
        nextAuthorId := db.nextAuthorId + 1 } = some .authorsPenNameUnique := by
      unfold violation
      dsimp only
      rw [any_email_none_map_role, any_password_none_map_role, dupEmail_map_role,
        h1, h2, h3, hdup]
      simp
    unfold upgrade_user_role upgrade_user_role_by_id
    rw [hu]
    dsimp only
    rw [if_pos rfl, if_neg hcond, hmap, hvc]
  · intro hnex hnpen
    have hcond : ¬ ((db.authors.any fun a => decide (a.user_id = u.id)) = true) := by
      simp only [List.any_eq_true, decide_eq_true_eq]
      exact hnex
    have hpennotmem : defaultPenName u.id ∉ db.authors.map (fun a => a.pen_name) := by
      intro hmem
      obtain ⟨a, ha, hap⟩ := List.mem_map.mp hmem
      exact hnpen ⟨a, ha, hap⟩
    have huidnotmem : u.id ∉ db.authors.map (fun a => a.user_id) := by
      intro hmem
      obtain ⟨a, ha, hap⟩ := List.mem_map.mp hmem
      exact hnex ⟨a, ha, hap⟩
    have c4 : dupPenName (db.authors ++
        [⟨db.nextAuthorId, defaultPenName u.id, none, u.id⟩]) = false := by
      rw [dupPenName_false_iff, List.map_append]
      dsimp only [List.map_cons, List.map_nil]
      rw [nodup_concat]
      exact ⟨hpennotmem, (dupPenName_false_iff _).mp h4⟩
    have c5 : dupUserId (db.authors ++
        [⟨db.nextAuthorId, defaultPenName u.id, none, u.id⟩]) = false := by
      rw [dupUserId_false_iff, List.map_append]
      dsimp only [List.map_cons, List.map_nil]
      rw [nodup_concat]
      exact ⟨huidnotmem, (dupUserId_false_iff _).mp h5⟩
    have hvc : violation { db with
        users := db.users.map (fun w =>
          if w.id = u.id then { w with role := 1 } else w),
        authors := db.authors ++
          [⟨db.nextAuthorId, defaultPenName u.id, none, u.id⟩],
        nextAuthorId := db.nextAuthorId + 1 } = none :=
      violation_eq_none.mpr
        ⟨(any_email_none_map_role db.users u.id 1).trans h1,
          (any_password_none_map_role db.users u.id 1).trans h2,
          (dupEmail_map_role db.users u.id 1).trans h3,
          c4, c5, postFkBroken_mono db.posts db.authors _ h6⟩
    unfold upgrade_user_role upgrade_user_role_by_id
    rw [hu]
    dsimp only
    rw [if_pos rfl, if_neg hcond, hmap, hvc]

/-- C1 witness: in the two-reader state `dbUsers2`, upgrading user 1
to role 1 succeeds, sets the role, and creates the Author row with pen
name "Author_1". -/
theorem claim_C1_witness :
    upgrade_user_role dbUsers2 1 1 =
      ({ dbUsers2 with
          users := dbUsers2.users.map (fun w =>
            if w.id = 1 then { w with role := 1 } else w),
          authors := dbUsers2.authors ++
            [⟨dbUsers2.nextAuthorId, defaultPenName 1, none, 1⟩],
          nextAuthorId := dbUsers2.nextAuthorId + 1 },
        Except.ok { userA with role := 1 }) :=
  (claim_C1_upgrade_role_author dbUsers2 1 userA (by decide) (by decide)).2.2
    (by decide) (by decide)

/-- C2: in `create_author_with_user`, any uniqueness conflict rolls the
whole transaction back — neither the User nor the Author row is
persisted — and the HTTP 400 Conflict reason is selected from the
violated constraint with precedence email (detected at the user
flush), then pen_name, then user_id, falling back to the generic
"Duplicate or invalid data" message; with no conflict both rows are
persisted atomically. -/
theorem claim_C2_create_author_conflicts (db : DB) (p : AuthorCreate)
    (hwf : db.wf) :
    ((db.users.any fun u => u.email = some p.profile.email) = true →
      create_author_with_user db p =
        (db, Except.error (Err.httpException 400 "Email already exists"))) ∧
    ((db.users.any fun u => u.email = some p.profile.email) = false →
      (db.authors.any fun a => a.pen_name = p.pen_name) = true →
      create_author_with_user db p =
        (db, Except.error (Err.httpException 400 "Pen name already exists"))) ∧
    ((db.users.any fun u => u.email = some p.profile.email) = false →
      (db.authors.any fun a => a.pen_name = p.pen_name) = false →
      create_author_with_user db p =
        ({ db with
            users := db.users ++
              [⟨db.nextUserId, some p.profile.email, some p.profile.password,
                p.profile.phone_number, 1, db.clock, db.clock⟩],
            nextUserId := db.nextUserId + 1,
            authors := db.authors ++
              [⟨db.nextAuthorId, p.pen_name, p.bio, db.nextUserId⟩],
            nextAuthorId := db.nextAuthorId + 1 },
          Except.ok ⟨db.nextAuthorId, p.pen_name, p.bio, db.nextUserId⟩)) ∧
    conflictMessage Constraint.usersEmailUnique = "Email already exists" ∧
    conflictMessage Constraint.authorsPenNameUnique = "Pen name already exists" ∧
    conflictMessage Constraint.authorsUserIdUnique = "Author for this user already exists" ∧
    conflictMessage Constraint.postsAuthorFk = "Duplicate or invalid data" := by
  obtain ⟨hv, hndU, hndA, hltU, hltA, hfk2⟩ := hwf
  rw [violation_eq_none] at hv
  obtain ⟨h1, h2, h3, h4, h5, h6⟩ := hv
  have hfm : List.filterMap (fun u : UserRow => u.email)
      [⟨db.nextUserId, some p.profile.email, some p.profile.password,
        p.profile.phone_number, 1, db.clock, db.clock⟩]
      = [p.profile.email] := rfl
  have ce : ((db.users ++
      [(⟨db.nextUserId, some p.profile.email, some p.profile.password,
        p.profile.phone_number, 1, db.clock, db.clock⟩ : UserRow)]).any
        fun u => decide (u.email = none)) = false := by
    rw [List.any_append, h1]
    rfl
  have cp : ((db.users ++
      [(⟨db.nextUserId, some p.profile.email, some p.profile.password,
        p.profile.phone_number, 1, db.clock, db.clock⟩ : UserRow)]).any
        fun u => decide (u.password = none)) = false := by
    rw [List.any_append, h2]
    rfl
  refine ⟨?_, ?_, ?_, by decide, by decide, by decide, by decide⟩
  · intro hdupb
    have hmem : p.profile.email ∈ db.users.filterMap (fun u => u.email) := by
      obtain ⟨w, hw, hweq⟩ := by
        simpa only [List.any_eq_true, decide_eq_true_eq] using hdupb
      exact List.mem_filterMap.mpr ⟨w, hw, hweq⟩
    have hde : dupEmail (db.users ++
        [⟨db.nextUserId, some p.profile.email, some p.profile.password,
          p.profile.phone_number, 1, db.clock, db.clock⟩]) = true := by
      rw [dupEmail_true_iff, List.filterMap_append, hfm, nodup_concat]
      intro hcontra
      exact hcontra.1 hmem
    have hvc1 : violation { db with
        users := db.users ++
          [⟨db.nextUserId, some p.profile.email, some p.profile.password,
            p.profile.phone_number, 1, db.clock, db.clock⟩],
        nextUserId := db.nextUserId + 1 } = some .usersEmailUnique := by
      unfold violation
      dsimp only
      rw [ce, cp, hde]
      simp
    unfold create_author_with_user
    dsimp only
    rw [hvc1]
    dsimp only
    rw [show conflictMessage Constraint.usersEmailUnique = "Email already exists"
      from by decide]
  · intro hnedupb hpendupb
    have hnotmem : p.profile.email ∉ db.users.filterMap (fun u => u.email) := by
      intro hmem
      obtain ⟨w, hw, hweq⟩ := List.mem_filterMap.mp hmem
      have := by simpa only [List.any_eq_false, decide_eq_true_eq] using hnedupb
      exact this w hw hweq
    have hde' : dupEmail (db.users ++
        [⟨db.nextUserId, some p.profile.email, some p.profile.password,
          p.profile.phone_number, 1, db.clock, db.clock⟩]) = false := by
      rw [dupEmail_false_iff, List.filterMap_append, hfm, nodup_concat]
      exact ⟨hnotmem, (dupEmail_false_iff _).mp h3⟩
    have hvc1 : violation { db with
        users := db.users ++
          [⟨db.nextUserId, some p.profile.email, some p.profile.password,
            p.profile.phone_number, 1, db.clock, db.clock⟩],
        nextUserId := db.nextUserId + 1 } = none :=
      violation_eq_none.mpr ⟨ce, cp, hde', h4, h5, h6⟩
    have hpenmem : p.pen_name ∈ db.authors.map (fun a => a.pen_name) := by
      obtain ⟨a, ha, hap⟩ := by
        simpa only [List.any_eq_true, decide_eq_true_eq] using hpendupb
      exact List.mem_map.mpr ⟨a, ha, hap⟩
    have hdp : dupPenName (db.authors ++
        [⟨db.nextAuthorId, p.pen_name, p.bio, db.nextUserId⟩]) = true := by
      rw [dupPenName_true_iff, List.map_append]
      dsimp only [List.map_cons, List.map_nil]
      rw [nodup_concat]
      intro hcontra
      exact hcontra.1 hpenmem
    have hvc2 : violation { db with
        users := db.users ++
          [⟨db.nextUserId, some p.profile.email, some p.profile.password,
            p.profile.phone_number, 1, db.clock, db.clock⟩],
        nextUserId := db.nextUserId + 1,
        authors := db.authors ++
          [⟨db.nextAuthorId, p.pen_name, p.bio, db.nextUserId⟩],
        nextAuthorId := db.nextAuthorId + 1 } = some .authorsPenNameUnique := by
      unfold violation
      dsimp only
      rw [ce, cp, hde', hdp]
      simp
    unfold create_author_with_user
    dsimp only
    rw [hvc1]
    dsimp only
    rw [hvc2]
    dsimp only
    rw [show conflictMessage Constraint.authorsPenNameUnique = "Pen name already exists"
      from by decide]
  · intro hnedupb hnpendupb
    have hnotmem : p.profile.email ∉ db.users.filterMap (fun u => u.email) := by
      intro hmem
      obtain ⟨w, hw, hweq⟩ := List.mem_filterMap.mp hmem
      have := by simpa only [List.any_eq_false, decide_eq_true_eq] using hnedupb
      exact this w hw hweq
    have hde' : dupEmail (db.users ++
        [⟨db.nextUserId, some p.profile.email, some p.profile.password,
          p.profile.phone_number, 1, db.clock, db.clock⟩]) = false := by
      rw [dupEmail_false_iff, List.filterMap_append, hfm, nodup_concat]
      exact ⟨hnotmem, (dupEmail_false_iff _).mp h3⟩
    have hvc1 : violation { db with
        users := db.users ++
          [⟨db.nextUserId, some p.profile.email, some p.profile.password,
            p.profile.phone_number, 1, db.clock, db.clock⟩],
        nextUserId := db.nextUserId + 1 } = none :=
      violation_eq_none.mpr ⟨ce, cp, hde', h4, h5, h6⟩
    have hpennotmem : p.pen_name ∉ db.authors.map (fun a => a.pen_name) := by
      intro hmem
      obtain ⟨a, ha, hap⟩ := List.mem_map.mp hmem
      have := by simpa only [List.any_eq_false, decide_eq_true_eq] using hnpendupb
      exact this a ha hap
    have hunotmem : db.nextUserId ∉ db.authors.map (fun a => a.user_id) := by
      intro hmem
      obtain ⟨a, ha, hap⟩ := List.mem_map.mp hmem
      obtain ⟨w, hw, hwid⟩ := hfk2 a ha
      have hlt := hltU w hw
      omega
    have c4' : dupPenName (db.authors ++
        [⟨db.nextAuthorId, p.pen_name, p.bio, db.nextUserId⟩]) = false := by
      rw [dupPenName_false_iff, List.map_append]
      dsimp only [List.map_cons, List.map_nil]
      rw [nodup_concat]
      exact ⟨hpennotmem, (dupPenName_false_iff _).mp h4⟩
    have c5' : dupUserId (db.authors ++
        [⟨db.nextAuthorId, p.pen_name, p.bio, db.nextUserId⟩]) = false := by
      rw [dupUserId_false_iff, List.map_append]
      dsimp only [List.map_cons, List.map_nil]
      rw [nodup_concat]
      exact ⟨hunotmem, (dupUserId_false_iff _).mp h5⟩
    have hvc2 : violation { db with
        users := db.users ++
          [⟨db.nextUserId, some p.profile.email, some p.profile.password,
            p.profile.phone_number, 1, db.clock, db.clock⟩],
        nextUserId := db.nextUserId + 1,
        authors := db.authors ++
          [⟨db.nextAuthorId, p.pen_name, p.bio, db.nextUserId⟩],
        nextAuthorId := db.nextAuthorId + 1 } = none :=
      violation_eq_none.mpr
        ⟨ce, cp, hde', c4', c5', postFkBroken_mono db.posts db.authors _ h6⟩
    unfold create_author_with_user
    dsimp only
    rw [hvc1]
    dsimp only
    rw [hvc2]

/-- C2 witness: creating an author with a fresh user in the empty
database persists both rows in one step. -/
theorem claim_C2_witness :
    create_author_with_user emptyDB ⟨"Pen", ⟨"a@b.com", "secret1", none⟩, some "bio"⟩ =
      ({ emptyDB with
          users := emptyDB.users ++
            [⟨0, some "a@b.com", some "secret1", none, 1, 0, 0⟩],
          nextUserId := 1,
          authors := emptyDB.authors ++ [⟨0, "Pen", some "bio", 0⟩],
          nextAuthorId := 1 },
        Except.ok ⟨0, "Pen", some "bio", 0⟩) :=
  (claim_C2_create_author_conflicts emptyDB
      ⟨"Pen", ⟨"a@b.com", "secret1", none⟩, some "bio"⟩ (by decide)).2.2.1
    (by decide) (by decide)
